import Mathlib

/-
Verification of the tubely upload pipeline (learn-file-storage-s3-golang).

Shallow embedding of the Go source:
  - Strings manipulated by the code are modelled as `List Char` (`GoStr`).
  - `strings.Split` with a one-character separator is `goSplit`.
  - `base64.RawURLEncoding.EncodeToString` is `rawURLEncode` (RFC 4648
    URL-safe alphabet, unpadded), bytes as `Nat`.
  - the float64 threshold comparisons in `getVideoAspectRatio` are
    modelled by their exact rational values (in cleared-denominator
    integer form).  At exact-boundary ratios (|w/h - a/b| = 1/10
    precisely, e.g. width 151 height 90) float64 rounding can make the
    program classify differently from the exact rule, so no theorem in
    this file asserts the exact rule as a characterization of the
    program over all inputs; every theorem that evaluates the
    classifier does so at width 1920 height 1080, where the float64 and
    exact computations agree (the subtraction is exactly 0).
  - External effects (uuid parsing, JWT validation, multipart parsing, the
    metadata store, ffprobe/ffmpeg invocations, S3 calls, the randomness
    source, os.CreateTemp's random suffix) are oracle fields of an
    environment record; the handler is a pure function from the
    environment to a trace of its observable effects (HTTP responses,
    local files existing at handler exit, UpdateVideo calls, PutObject
    calls, whether the goroutine panicked).
  - A Go `respondWithError` not followed by `return` is modelled exactly as
    in the source: the response is recorded and execution continues.
  - Go's `os.CreateTemp(dir, pattern)` appends a random non-empty suffix to
    the pattern; the suffix is an oracle field.  A nil `*os.File` (after a
    failed CreateTemp with no return) yields `ErrInvalid` from Write/Seek
    and a nil-pointer panic from `Name()`, as in the Go runtime.
-/

abbrev GoStr := List Char

/-- Model of Go `strings.Split(s, sep)` for a one-character separator.
`strings.Split("", sep) = [""]` and the separator is not kept. -/
def goSplit (sep : Char) : List Char → List (List Char)
  | [] => [[]]
  | c :: cs =>
    if c = sep then [] :: goSplit sep cs
    else
      match goSplit sep cs with
      | [] => [[c]]
      | h :: t => (c :: h) :: t

/-- The RFC 4648 URL-safe base64 alphabet used by Go's
`base64.RawURLEncoding`. -/
def b64Alphabet : List Char :=
  "ABCDEFGHIJKLMNOPQRSTUVWXYZabcdefghijklmnopqrstuvwxyz0123456789-_".toList

/-- Character of the URL-safe base64 alphabet at index `n`. -/
def b64Char (n : Nat) : Char := b64Alphabet.getD n 'A'

/-- Model of Go `base64.RawURLEncoding.EncodeToString`: unpadded base64url
of a byte sequence, 3 bytes to 4 characters, tail of 1 byte to 2
characters, tail of 2 bytes to 3 characters. -/
def rawURLEncode : List Nat → List Char
  | [] => []
  | [b1] => [b64Char (b1 / 4), b64Char (b1 % 4 * 16)]
  | [b1, b2] =>
    [b64Char (b1 / 4), b64Char (b1 % 4 * 16 + b2 / 16), b64Char (b2 % 16 * 4)]
  | b1 :: b2 :: b3 :: rest =>
    b64Char (b1 / 4) :: b64Char (b1 % 4 * 16 + b2 / 16) ::
    b64Char (b2 % 16 * 4 + b3 / 64) :: b64Char (b3 % 64) :: rawURLEncode rest

/-- Outcome of a Go call that can also panic (index out of range,
nil-pointer dereference). -/
inductive GoOutcome (α : Type) where
  | ok : α → GoOutcome α
  | err : GoStr → GoOutcome α
  | panic : GoOutcome α
deriving DecidableEq

/-- Model of `(cfg *apiConfig) getFilename` (src/helpers.go): the extension
is `"." + strings.Split(mediaType, "/")[1]` (an out-of-range panic when the
media type holds no slash, since the split then has a single element), the
basename is the base64url encoding of 32 random bytes.  The randomness
outcome of `rand.Read` is the `randRes` oracle. -/
def getFilename (mediaType : GoStr) (randRes : Except GoStr (List Nat)) : GoOutcome GoStr :=
  match (goSplit '/' mediaType).get? 1 with
  | none => .panic
  | some sub =>
    match randRes with
    | .error e => .err e
    | .ok b => .ok (rawURLEncode b ++ '.' :: sub)

/-- Model of Go `math.Abs` on the integers. -/
def intAbs (x : Int) : Int := if x < 0 then -x else x

/-- The aspect-classification arithmetic of ` getVideoAspectRatio`
(src/helpers.go): ratio = width/height, "16:9" when |ratio - 16/9| < 0.1,
else "9:16" when |ratio - 9/16| < 0.1, else "other".  The source
evaluates the comparisons in float64; here each is replaced by its exact
rational value, written with cleared denominators over the integers (for
positive height the first test equals |w/h - 16/9| < 1/10 exactly, see
` ratio_abs_lt_iff`).  The two computations differ at exact-boundary
inputs: at width 151 height 90 the float64 program finds
math.Abs(151.0/90.0 - 16.0/9.0) = 0.09999999999999987 < 0.1 and returns
"16:9", while |151/90 - 16/9| = 1/10 exactly and this definition returns
"other".  Theorems below therefore evaluate this definition only at
width 1920 height 1080, where float64 and exact arithmetic agree (the
subtraction is exactly 0).  For height 0 both integer tests are false
and the result is "other", agreeing with Go's Inf/NaN comparisons. -/
def classifyAspect (w h : Int) : GoStr :=
  if 10 * intAbs (9 * w - 16 * h) < 9 * h then "16:9".toList
  else if 10 * intAbs (16 * w - 9 * h) < 16 * h then "9:16".toList
  else "other".toList

/-- Model of ` getVideoAspectRatio` (src/helpers.go).  The ffprobe
invocation and JSON decoding are the oracle `probe`: an error models a
non-zero exit or unparseable output, an ok value is the decoded list of
streams' (width, height).  Zero streams is the "no streams found" error;
otherwise the first stream is classified. -/
def getVideoAspectRatio (probe : Except GoStr (List (Int × Int))) : Except GoStr GoStr :=
  match probe with
  | .error e => .error e
  | .ok streams =>
    match streams with
    | [] => .error "no streams found in video file".toList
    | (w, h) :: _ => .ok (classifyAspect w h)

/-- The `prefixes` map lookup of handlerUploadVideo
(src/handler_upload_video.go): a Go map lookup of a missing key yields the
zero value "". -/
def prefixFor (aspect : GoStr) : GoStr :=
  if aspect = "16:9".toList then "landscape".toList
  else if aspect = "9:16".toList then "portrait".toList
  else if aspect = "other".toList then "other".toList
  else []

/-- Model of `processVideoForFastStart` (src/handler_upload_thumbnail.go,
lines 197-212): output path is `filePath + ".processed"`; when the ffmpeg
run fails (`runErr = some (errText, stderrText)`) the result is the error
`fmt.Errorf("ffmpeg error: %v, stderr: %s", err, stderr.String())`. -/
def processVideoForFastStart (filePath : GoStr) (runErr : Option (GoStr × GoStr)) :
    Except GoStr GoStr :=
  let outputPath := filePath ++ ".processed".toList
  match runErr with
  | some (errText, stderrText) =>
    .error ("ffmpeg error: ".toList ++ errText ++ ", stderr: ".toList ++ stderrText)
  | none => .ok outputPath

/-- The fields of `database.Video` the pipeline reads or writes. -/
structure Video where
  id : Nat
  userID : Nat
  title : GoStr
  thumbnailURL : Option GoStr
  videoURL : Option GoStr
deriving DecidableEq

/-- Model of `dbVideoToSignedVideo` (src/handler_upload_thumbnail.go,
lines 242-263).  `presign` is the `generatePresignedURL` oracle
(bucket, key to signed URL or error).  A nil VideoURL returns the record
unchanged; otherwise it is split on "," and must give exactly two parts. -/
def dbVideoToSignedVideo (presign : GoStr → GoStr → Except GoStr GoStr)
    (video : Video) : Except GoStr Video :=
  match video.videoURL with
  | some url =>
    let parts := goSplit ',' url
    if parts.length = 2 then
      match presign (parts.getD 0 []) (parts.getD 1 []) with
      | .error e => .error e
      | .ok signedURL => .ok { video with videoURL := some signedURL }
    else
      .error ("invalid video URL format: expected bucket,key got ".toList ++ url)
  | none => .ok video

/-- Observable effects of one handler invocation: `respondWith*` calls in
order as (status, message), local files this request created and that
still exist when the handler (and its defers) finished, `UpdateVideo`
calls in order, `PutObject` calls in order as (bucket, key), and whether
the goroutine panicked. -/
structure Trace where
  responses : List (Nat × String)
  files : List GoStr
  updates : List Video
  puts : List (GoStr × GoStr)
  panicked : Bool
deriving DecidableEq

/-- `files.filter` removing path `p`: the effect of a successful
`os.Remove(p)` on the set of files this request created (removing an
absent path is a no-op whose error the source ignores). -/
def removeFile (p : GoStr) (files : List GoStr) : List GoStr :=
  files.filter (fun f => f ≠ p)

/-- Oracle outcomes of every external call `handlerUploadVideo` makes, in
source order.  `tmpSuffix` is the random non-empty suffix Go's
`os.CreateTemp` appends to the pattern "tubely-upload.mp4" (or the
creation error).  `mediaTypeParse` is the result of
`mime.ParseMediaType(header.Header.Get("Content-Type"))`. -/
structure EnvVideo where
  videoIDParse : Except GoStr Nat
  bearerToken : Except GoStr GoStr
  validateJWT : Except GoStr Nat
  parseForm : Except GoStr Unit
  formFile : Except GoStr Unit
  getVideo : Except GoStr Video
  mediaTypeParse : Except GoStr GoStr
  tmpSuffix : Except GoStr GoStr
  copyToTmp : Except GoStr Unit
  seekTmp : Except GoStr Unit
  randBytes : Except GoStr (List Nat)
  probeStreams : Except GoStr (List (Int × Int))
  presign : GoStr → GoStr → Except GoStr GoStr
  ffmpegRun : Option (GoStr × GoStr)
  openProcessed : Except GoStr Unit
  putObject : Except GoStr Unit
  s3Bucket : GoStr

/-- Model of `handlerUploadVideo` (src/handler_upload_video.go), step for
step, including the `respondWithError` calls that the source does NOT
follow with `return` (Content-Type parse failure, the mp4 check,
CreateTemp / io.Copy / Seek failures, the final PutObject failure) and
the deferred `os.Remove("/tmp/tubely-upload.mp4")` that names the fixed
pattern path rather than the suffixed name CreateTemp returned.  When
CreateTemp failed (`tmpFile` nil) io.Copy and Seek yield ErrInvalid and
execution proceeds to `tmpFile.Name()`, a nil-pointer panic. -/
def handlerUploadVideo (env : EnvVideo) : Trace :=
  match env.videoIDParse with
  | .error _ => ⟨[(400, "Invalid ID")], [], [], [], false⟩
  | .ok _ =>
  match env.bearerToken with
  | .error _ => ⟨[(401, "Missing token")], [], [], [], false⟩
  | .ok _ =>
  match env.validateJWT with
  | .error _ => ⟨[(401, "Invalid token")], [], [], [], false⟩
  | .ok userID =>
  match env.parseForm with
  | .error _ => ⟨[(400, "Unable to parse form")], [], [], [], false⟩
  | .ok _ =>
  match env.formFile with
  | .error _ => ⟨[(400, "Unable to parse uploaded file")], [], [], [], false⟩
  | .ok _ =>
  match env.getVideo with
  | .error _ => ⟨[(500, "Unable to get video metadata")], [], [], [], false⟩
  | .ok metadata =>
  if metadata.userID ≠ userID then
    ⟨[(401, "User does not have access to this video")], [], [], [], false⟩
  else
    -- ParseMediaType error: respond, NO return; mediaType is "" on error.
    let pRes :=
      match env.mediaTypeParse with
      | .error _ => ([(500, "Unable to parse Content-Type header")], ([] : GoStr))
      | .ok mt => ([], mt)
    let mediaType := pRes.2
    -- mp4 check: respond, NO return.
    let resps2 := pRes.1 ++
      (if mediaType ≠ "video/mp4".toList then [(400, "Video must be in mp4 format")] else [])
    let fixedPath := "/tmp/tubely-upload.mp4".toList
    match env.tmpSuffix with
    | .error _ =>
      -- CreateTemp failed: respond, NO return; tmpFile is nil, so io.Copy
      -- and Seek fail with ErrInvalid (respond, NO return each).
      let resps3 := resps2 ++ [(500, "Unable to save temporary file"),
        (500, "Unable to write to temporary file"), (500, "Unable to reset pointer")]
      match getFilename mediaType env.randBytes with
      | .panic => ⟨resps3, [], [], [], true⟩
      | .err _ => ⟨resps3 ++ [(500, "Unable to upload video to s3")], [], [], [], false⟩
      | .ok _ =>
        -- next source line calls tmpFile.Name() on a nil *os.File: panic.
        ⟨resps3, [], [], [], true⟩
    | .ok suffix =>
      let tmpName := fixedPath ++ suffix
      let resps3 := resps2 ++
        (match env.copyToTmp with
         | .error _ => [(500, "Unable to write to temporary file")]
         | .ok _ => [])
      let resps4 := resps3 ++
        (match env.seekTmp with
         | .error _ => [(500, "Unable to reset pointer")]
         | .ok _ => [])
      match getFilename mediaType env.randBytes with
      | .panic => ⟨resps4, removeFile fixedPath [tmpName], [], [], true⟩
      | .err _ =>
        ⟨resps4 ++ [(500, "Unable to upload video to s3")],
          removeFile fixedPath [tmpName], [], [], false⟩
      | .ok fname =>
      match getVideoAspectRatio env.probeStreams with
      | .error _ =>
        ⟨resps4 ++ [(500, "Unable to upload video to s3")],
          removeFile fixedPath [tmpName], [], [], false⟩
      | .ok aspect =>
      let key := prefixFor aspect ++ '/' :: fname
      let videoUrl := env.s3Bucket ++ ',' :: key
      let metadata1 := { metadata with videoURL := some videoUrl }
      -- cfg.db.UpdateVideo(metadata): its error is ignored by the source.
      let updates := [metadata1]
      match dbVideoToSignedVideo env.presign metadata1 with
      | .error _ =>
        ⟨resps4 ++ [(500, "Unable to upload video to s3")],
          removeFile fixedPath [tmpName], updates, [], false⟩
      | .ok _ =>
      match processVideoForFastStart tmpName env.ffmpegRun with
      | .error _ =>
        ⟨resps4 ++ [(500, "Unable to upload video to s3")],
          removeFile fixedPath [tmpName], updates, [], false⟩
      | .ok processedPath =>
      match env.openProcessed with
      | .error _ =>
        ⟨resps4 ++ [(500, "Unable to upload video to s3")],
          removeFile fixedPath [tmpName, processedPath], updates, [], false⟩
      | .ok _ =>
        let resps5 := resps4 ++
          (match env.putObject with
           | .error _ => [(500, "Unable to upload video to S3")]
           | .ok _ => [])
        ⟨resps5,
          removeFile fixedPath (removeFile processedPath [tmpName, processedPath]),
          updates, [(env.s3Bucket, key)], false⟩

/-- Oracle outcomes of the external calls `handlerUploadThumbnail` makes,
in source order. -/
structure EnvThumb where
  videoIDParse : Except GoStr Nat
  bearerToken : Except GoStr GoStr
  validateJWT : Except GoStr Nat
  parseForm : Except GoStr Unit
  formFile : Except GoStr Unit
  getVideo : Except GoStr Video
  mediaTypeParse : Except GoStr GoStr
  randBytes : Except GoStr (List Nat)
  createFile : Except GoStr Unit

/-- Model of `handlerUploadThumbnail` (src/handler_upload_thumbnail.go),
including the `respondWithError` calls without `return` (Content-Type
parse failure, the png/jpeg check, os.Create failure) and the ignored
io.Copy error. -/
def handlerUploadThumbnail (env : EnvThumb) : Trace :=
  match env.videoIDParse with
  | .error _ => ⟨[(400, "Invalid ID")], [], [], [], false⟩
  | .ok _ =>
  match env.bearerToken with
  | .error _ => ⟨[(401, "Couldn't find JWT")], [], [], [], false⟩
  | .ok _ =>
  match env.validateJWT with
  | .error _ => ⟨[(401, "Couldn't validate JWT")], [], [], [], false⟩
  | .ok userID =>
  match env.parseForm with
  | .error _ => ⟨[(400, "Unable to parse form")], [], [], [], false⟩
  | .ok _ =>
  match env.formFile with
  | .error _ => ⟨[(400, "Unable to parse uploaded file")], [], [], [], false⟩
  | .ok _ =>
  match env.getVideo with
  | .error _ => ⟨[(500, "Unable to get video metadata")], [], [], [], false⟩
  | .ok metadata =>
  if metadata.userID ≠ userID then
    ⟨[(401, "User does not have access to this video")], [], [], [], false⟩
  else
    let pRes :=
      match env.mediaTypeParse with
      | .error _ => ([(500, "Unable to parse Content-Type header")], ([] : GoStr))
      | .ok mt => ([], mt)
    let mediaType := pRes.2
    let resps2 := pRes.1 ++
      (if mediaType ≠ "image/png".toList ∧ mediaType ≠ "image/jpeg".toList then
        [(400, "Thumbnail must be image/png or image/jpeg mime type")] else [])
    match getFilename mediaType env.randBytes with
    | .panic => ⟨resps2, [], [], [], true⟩
    | .err _ => ⟨resps2 ++ [(500, "Unable to upload file")], [], [], [], false⟩
    | .ok filePath =>
      -- os.Create failure: respond, NO return; the io.Copy error (nil file
      -- gives ErrInvalid) is discarded by the source either way.
      let cRes :=
        match env.createFile with
        | .error _ => ([(500, "Unable to upload thumbnail")], ([] : List GoStr))
        | .ok _ => ([], [filePath])
      let thumbnailUrl := "http://localhost:8091/".toList ++ filePath
      let metadata1 := { metadata with thumbnailURL := some thumbnailUrl }
      ⟨resps2 ++ cRes.1 ++ [(200, "OK")], cRes.2, [metadata1], [], false⟩

/-- A concrete metadata record: video 7 owned by user 42, no locations
set yet. -/
def videoA : Video := ⟨7, 42, "t".toList, none, none⟩

/-- An all-success oracle environment for the video handler: well-formed
request by user 42 owning video 7, part content type video/mp4,
CreateTemp suffix "123456", 32 zero random bytes, a 1920x1080 first
stream, and succeeding presign/ffmpeg/open/PutObject. -/
def happyEnvV : EnvVideo where
  videoIDParse := .ok 7
  bearerToken := .ok "tok".toList
  validateJWT := .ok 42
  parseForm := .ok ()
  formFile := .ok ()
  getVideo := .ok videoA
  mediaTypeParse := .ok "video/mp4".toList
  tmpSuffix := .ok "123456".toList
  copyToTmp := .ok ()
  seekTmp := .ok ()
  randBytes := .ok (List.replicate 32 0)
  probeStreams := .ok [(1920, 1080)]
  presign := fun _ _ => .ok "signed-url".toList
  ffmpegRun := none
  openProcessed := .ok ()
  putObject := .ok ()
  s3Bucket := "tubely-bucket".toList

/-- An all-success oracle environment for the thumbnail handler. -/
def happyEnvT : EnvThumb where
  videoIDParse := .ok 7
  bearerToken := .ok "tok".toList
  validateJWT := .ok 42
  parseForm := .ok ()
  formFile := .ok ()
  getVideo := .ok videoA
  mediaTypeParse := .ok "image/png".toList
  randBytes := .ok (List.replicate 32 0)
  createFile := .ok ()

theorem goSplit_ne_nil (sep : Char) : ∀ s : List Char, goSplit sep s ≠ []
  | [] => by simp [goSplit]
  | c :: cs => by
    by_cases hc : c = sep
    · simp [goSplit, hc]
    · cases hgs : goSplit sep cs with
      | nil => simp [goSplit, hc, hgs]
      | cons h t => simp [goSplit, hc, hgs]

theorem goSplit_of_not_mem (sep : Char) : ∀ s : List Char, sep ∉ s → goSplit sep s = [s]
  | [], _ => rfl
  | c :: cs, h => by
    have hc : ¬ c = sep := fun e => h (by rw [e]; exact List.mem_cons_self sep cs)
    have ih := goSplit_of_not_mem sep cs (fun m => h (List.mem_cons_of_mem c m))
    simp [goSplit, hc, ih]

theorem goSplit_append (sep : Char) :
    ∀ (a b : List Char), sep ∉ a → goSplit sep (a ++ sep :: b) = a :: goSplit sep b
  | [], b, _ => by simp [goSplit]
  | c :: a, b, h => by
    have hc : ¬ c = sep := fun e => h (by rw [e]; exact List.mem_cons_self sep a)
    have ih := goSplit_append sep a b (fun m => h (List.mem_cons_of_mem c m))
    simp [goSplit, hc, ih]

theorem goSplit_pair (sep : Char) (a b : List Char) (ha : sep ∉ a) (hb : sep ∉ b) :
    goSplit sep (a ++ sep :: b) = [a, b] := by
  rw [goSplit_append sep a b ha, goSplit_of_not_mem sep b hb]

theorem rawURLEncode_length : ∀ l : List Nat, (rawURLEncode l).length = (4 * l.length + 2) / 3
  | [] => rfl
  | [_] => by simp [rawURLEncode]
  | [_, _] => by simp [rawURLEncode]
  | _ :: _ :: _ :: rest => by
    have ih := rawURLEncode_length rest
    simp [rawURLEncode, ih]
    omega

theorem getD_mem_or {α : Type} (l : List α) (n : Nat) (d : α) :
    l.getD n d ∈ l ∨ l.getD n d = d := by
  induction l generalizing n with
  | nil => right; cases n <;> rfl
  | cons a t ih =>
    cases n with
    | zero => rw [List.getD_cons_zero]; exact Or.inl (List.mem_cons_self a t)
    | succ m =>
      rw [List.getD_cons_succ]
      rcases ih m with hm | hm
      · exact Or.inl (List.mem_cons_of_mem a hm)
      · exact Or.inr hm

theorem b64Char_mem_or (n : Nat) : b64Char n ∈ b64Alphabet ∨ b64Char n = 'A' :=
  getD_mem_or b64Alphabet n 'A'

theorem rawURLEncode_mem : ∀ l : List Nat, ∀ c ∈ rawURLEncode l, c ∈ b64Alphabet ∨ c = 'A'
  | [], c, hc => absurd hc (by simp [rawURLEncode])
  | [b1], c, hc => by
    simp only [rawURLEncode, List.mem_cons, List.not_mem_nil, or_false] at hc
    rcases hc with rfl | rfl <;> exact b64Char_mem_or _
  | [b1, b2], c, hc => by
    simp only [rawURLEncode, List.mem_cons, List.not_mem_nil, or_false] at hc
    rcases hc with rfl | rfl | rfl <;> exact b64Char_mem_or _
  | b1 :: b2 :: b3 :: rest, c, hc => by
    simp only [rawURLEncode, List.mem_cons] at hc
    rcases hc with rfl | rfl | rfl | rfl | hmem
    · exact b64Char_mem_or _
    · exact b64Char_mem_or _
    · exact b64Char_mem_or _
    · exact b64Char_mem_or _
    · exact rawURLEncode_mem rest c hmem

theorem rawURLEncode_not_mem (c : Char) (hc1 : c ∉ b64Alphabet) (hc2 : c ≠ 'A')
    (l : List Nat) : c ∉ rawURLEncode l := fun h => by
  rcases rawURLEncode_mem l c h with h' | h'
  · exact hc1 h'
  · exact hc2 h'

theorem intAbs_eq_abs (x : Int) : intAbs x = |x| := by
  unfold intAbs
  by_cases hx : x < 0
  · rw [if_pos hx, abs_of_neg hx]
  · rw [if_neg hx, abs_of_nonneg (le_of_not_lt hx)]

/-- Fidelity of the embedding's integer form: the cleared-denominator
test used by `classifyAspect` is exactly the rational comparison
|w/h - a/b| < 1/10 when height and b are positive (it is the float64
comparison of the source that this exact value stands in for). -/
theorem ratio_abs_lt_iff (w h a b : Int) (hh : 0 < h) (hb : 0 < b) :
    (10 * intAbs (b * w - a * h) < b * h ↔
      |(w : ℚ) / (h : ℚ) - (a : ℚ) / (b : ℚ)| < 1 / 10) := by
  have hq : (0 : ℚ) < (h : ℚ) := by exact_mod_cast hh
  have hqb : (0 : ℚ) < (b : ℚ) := by exact_mod_cast hb
  have h0 : (h : ℚ) ≠ 0 := hq.ne'
  have b0 : (b : ℚ) ≠ 0 := hqb.ne'
  have e1 : (w : ℚ) / (h : ℚ) - (a : ℚ) / (b : ℚ) =
      ((b * w - a * h : ℤ) : ℚ) / ((b * h : ℤ) : ℚ) := by
    push_cast
    rw [div_sub_div _ _ h0 b0]
    ring_nf
  have hpos : (0 : ℚ) < ((b * h : ℤ) : ℚ) := by exact_mod_cast mul_pos hb hh
  rw [intAbs_eq_abs, e1, abs_div, abs_of_pos hpos, div_lt_iff₀ hpos, ← Int.cast_abs]
  constructor
  · intro hi
    have hi' : ((10 * |b * w - a * h| : ℤ) : ℚ) < ((b * h : ℤ) : ℚ) := by exact_mod_cast hi
    push_cast at hi' ⊢
    linarith
  · intro hi
    have hi' : ((10 * |b * w - a * h| : ℤ) : ℚ) < ((b * h : ℤ) : ℚ) := by
      push_cast at hi ⊢
      linarith
    exact_mod_cast hi'

/-- C8: the normalize operation produces its output at exactly
input + ".processed" and returns that path on success; when the external
ffmpeg process fails, the returned error carries the process's stderr
diagnostic text and no output path is returned. -/
theorem c8_fast_start_contract :
    (∀ p : GoStr, processVideoForFastStart p none = .ok (p ++ ".processed".toList)) ∧
    (∀ (p errText stderrText : GoStr),
      processVideoForFastStart p (some (errText, stderrText)) =
        .error ("ffmpeg error: ".toList ++ errText ++ ", stderr: ".toList ++ stderrText)) ∧
    (∀ (p errText stderrText out : GoStr),
      processVideoForFastStart p (some (errText, stderrText)) ≠ .ok out) := by
  refine ⟨fun p => rfl, fun p e s => rfl, fun p e s out hne => by
    simp [processVideoForFastStart] at hne⟩

/-- C6: for a media type of the form type/subtype, the filename generator
succeeds exactly when the randomness source succeeds, returning the
unpadded base64url encoding of the 32 random bytes, then ".", then the
subtype; the key length is the 32-byte encoded length (43) plus 1 plus
the subtype length; a randomness failure is propagated as the error. -/
theorem c6_filename_contract (t s e : GoStr) (bytes : List Nat)
    (ht : '/' ∉ t) (hs : '/' ∉ s) (hb : bytes.length = 32) :
    getFilename (t ++ '/' :: s) (.ok bytes) = .ok (rawURLEncode bytes ++ '.' :: s) ∧
    (rawURLEncode bytes ++ '.' :: s).length = (rawURLEncode bytes).length + 1 + s.length ∧
    (rawURLEncode bytes).length = 43 ∧
    getFilename (t ++ '/' :: s) (.error e) = .err e := by
  have hget : (goSplit '/' (t ++ '/' :: s))[1]? = some s := by
    rw [goSplit_pair '/' t s ht hs]; rfl
  refine ⟨?_, ?_, ?_, ?_⟩
  · simp [getFilename, hget]
  · simp [List.length_append]; omega
  · rw [rawURLEncode_length, hb]
  · simp [getFilename, hget]

/-- Witness for C6 at mediaType "video/mp4" and 32 zero bytes. -/
theorem c6_filename_contract_witness :
    getFilename ("video".toList ++ '/' :: "mp4".toList) (.ok (List.replicate 32 0)) =
      .ok (rawURLEncode (List.replicate 32 0) ++ '.' :: "mp4".toList) ∧
    (rawURLEncode (List.replicate 32 0)).length = 43 :=
  have h := c6_filename_contract "video".toList "mp4".toList "boom".toList
    (List.replicate 32 0) (by decide) (by decide) (by decide)
  ⟨h.1, h.2.2.1⟩

theorem getFilename_panic_iff (m : GoStr) (r : Except GoStr (List Nat)) :
    getFilename m r = .panic ↔ (goSplit '/' m).get? 1 = none := by
  unfold getFilename
  cases hg : (goSplit '/' m).get? 1 with
  | none => simp
  | some sub =>
    cases r with
    | error e => simp
    | ok b => simp

/-- C9: the filename generator panics (index out of range on
strings.Split(mediaType, "/")[1]) for a media type without "/", and
cannot panic for the validated media types; but the video handler's
media-type check responds without returning, so a request whose part
Content-Type parses to the slash-free "foo" still reaches getFilename
and panics — the handler model's panicked flag is set. -/
theorem c9_filename_panics_without_slash :
    (∀ r, getFilename "foo".toList r = .panic) ∧
    (∀ r, getFilename "video/mp4".toList r ≠ .panic) ∧
    (∀ r, getFilename "image/png".toList r ≠ .panic) ∧
    (∀ r, getFilename "image/jpeg".toList r ≠ .panic) ∧
    (handlerUploadVideo { happyEnvV with mediaTypeParse := .ok "foo".toList }).panicked = true := by
  refine ⟨fun r => (getFilename_panic_iff _ r).mpr (by decide),
    fun r h => absurd ((getFilename_panic_iff _ r).mp h) (by decide),
    fun r h => absurd ((getFilename_panic_iff _ r).mp h) (by decide),
    fun r h => absurd ((getFilename_panic_iff _ r).mp h) (by decide),
    by decide⟩

/-- C10: splitting the persisted composite string bucket + "," + key on
"," recovers exactly (bucket, key) whenever neither part holds a comma,
so dbVideoToSignedVideo signs the original bucket and key of every such
record; a record with a nil video URL is returned unchanged without
error; and every key the video pipeline generates (a prefix from
{landscape, portrait, other}, "/", base64url text, ".", a comma-free
subtype) holds no comma. -/
theorem c10_location_roundtrip (bucket key u : GoStr) (video : Video)
    (presign : GoStr → GoStr → Except GoStr GoStr)
    (hb : ',' ∉ bucket) (hk : ',' ∉ key) :
    goSplit ',' (bucket ++ ',' :: key) = [bucket, key] ∧
    (presign bucket key = .ok u →
      dbVideoToSignedVideo presign { video with videoURL := some (bucket ++ ',' :: key) } =
        .ok { video with videoURL := some u }) ∧
    (video.videoURL = none → dbVideoToSignedVideo presign video = .ok video) ∧
    (∀ (pfx sub : GoStr) (bytes : List Nat),
      pfx ∈ [("landscape".toList : GoStr), "portrait".toList, "other".toList] →
      ',' ∉ sub → ',' ∉ (pfx ++ '/' :: (rawURLEncode bytes ++ '.' :: sub))) := by
  have hsplit := goSplit_pair ',' bucket key hb hk
  refine ⟨hsplit, ?_, ?_, ?_⟩
  · intro hp
    simp [dbVideoToSignedVideo, hsplit, hp]
  · intro hnone
    simp [dbVideoToSignedVideo, hnone]
  · intro pfx sub bytes hpfx hsub hmem
    rcases List.mem_append.mp hmem with hm | hm
    · simp only [List.mem_cons, List.not_mem_nil, or_false] at hpfx
      rcases hpfx with rfl | rfl | rfl <;> exact absurd hm (by decide)
    · rcases List.mem_cons.mp hm with hc | hm2
      · exact absurd hc (by decide)
      · rcases List.mem_append.mp hm2 with hm3 | hm4
        · exact rawURLEncode_not_mem ',' (by decide) (by decide) bytes hm3
        · rcases List.mem_cons.mp hm4 with hc | hm5
          · exact absurd hc (by decide)
          · exact hsub hm5

/-- Witness for C10 at bucket "b", key "k" and an always-succeeding
presigner. -/
theorem c10_location_roundtrip_witness :
    goSplit ',' ("b".toList ++ ',' :: "k".toList) = ["b".toList, "k".toList] ∧
    dbVideoToSignedVideo (fun _ _ => .ok "u".toList)
        { videoA with videoURL := some ("b".toList ++ ',' :: "k".toList) } =
      .ok { videoA with videoURL := some "u".toList } ∧
    dbVideoToSignedVideo (fun _ _ => .ok "u".toList) videoA = .ok videoA :=
  have h := c10_location_roundtrip "b".toList "k".toList "u".toList videoA
    (fun _ _ => .ok "u".toList) (by decide) (by decide)
  ⟨h.1, h.2.1 rfl, h.2.2.1 rfl⟩

/-- C1: the video handler persists the video-location reference BEFORE
the transcode and the object-store publish: on a request in which every
step succeeds until the ffmpeg run exits non-zero, the handler has
already written the record (UpdateVideo was called with the bucket,key
location) although no PutObject ever happened, and it responds 500.
This refutes the claim that the record is left unmodified whenever a
step before the record update fails and that the location is persisted
only after a successful publish. -/
theorem c1_record_update_precedes_publish :
    (handlerUploadVideo
        { happyEnvV with ffmpegRun := some ("exit status 1".toList, "boom".toList) }).updates =
      [{ videoA with videoURL := some ("tubely-bucket".toList ++ ',' ::
        ("landscape".toList ++ '/' :: (rawURLEncode (List.replicate 32 0) ++ '.' :: "mp4".toList))) }] ∧
    (handlerUploadVideo
        { happyEnvV with ffmpegRun := some ("exit status 1".toList, "boom".toList) }).puts = [] ∧
    (handlerUploadVideo
        { happyEnvV with ffmpegRun := some ("exit status 1".toList, "boom".toList) }).responses =
      [(500, "Unable to upload video to s3")] := by
  decide

/-- C3: a video-upload request whose part content type parses to
"video/avi" is answered with the 400 bad-request response, but the
pipeline does NOT halt before staging: the source's respondWithError is
not followed by return, so the temporary file is still created (and
leaked), the probe and transcode still run, the record is still updated
and the object is still uploaded.  This refutes the claim that the
pipeline halts before the staging step. -/
theorem c3_unsupported_type_does_not_halt :
    (handlerUploadVideo { happyEnvV with mediaTypeParse := .ok "video/avi".toList }).responses =
      [(400, "Video must be in mp4 format")] ∧
    (handlerUploadVideo { happyEnvV with mediaTypeParse := .ok "video/avi".toList }).files =
      ["/tmp/tubely-upload.mp4123456".toList] ∧
    (handlerUploadVideo { happyEnvV with mediaTypeParse := .ok "video/avi".toList }).updates ≠ [] ∧
    (handlerUploadVideo { happyEnvV with mediaTypeParse := .ok "video/avi".toList }).puts ≠ [] := by
  decide

/-- C4: on a fully successful video upload the staged temporary file is
NOT removed by the end of the execution: os.CreateTemp returned the
suffixed name /tmp/tubely-upload.mp4123456 while the deferred remove
names the fixed path /tmp/tubely-upload.mp4, so the staged file still
exists when the handler returns (responses empty, upload performed).
This refutes the claim that the staged file is removed on every path. -/
theorem c4_staged_file_survives_handler :
    (handlerUploadVideo happyEnvV).responses = [] ∧
    (handlerUploadVideo happyEnvV).puts ≠ [] ∧
    (handlerUploadVideo happyEnvV).files = ["/tmp/tubely-upload.mp4123456".toList] ∧
    ("/tmp/tubely-upload.mp4123456".toList : GoStr) ≠ "/tmp/tubely-upload.mp4".toList := by
  decide

/-- C2: for both upload handlers, when the record's owning user differs
from the authenticated caller, the handler stops at the ownership check
with a 401 response and an otherwise empty trace: no file staged or
written, no PutObject, no UpdateVideo. -/
theorem c2_ownership_mismatch_halts
    (ev : EnvVideo) (et : EnvThumb) (vidv vidt uidv uidt : Nat)
    (tokv tokt : GoStr) (vv vt : Video)
    (h1 : ev.videoIDParse = .ok vidv) (h2 : ev.bearerToken = .ok tokv)
    (h3 : ev.validateJWT = .ok uidv) (h4 : ev.parseForm = .ok ())
    (h5 : ev.formFile = .ok ()) (h6 : ev.getVideo = .ok vv) (h7 : vv.userID ≠ uidv)
    (g1 : et.videoIDParse = .ok vidt) (g2 : et.bearerToken = .ok tokt)
    (g3 : et.validateJWT = .ok uidt) (g4 : et.parseForm = .ok ())
    (g5 : et.formFile = .ok ()) (g6 : et.getVideo = .ok vt) (g7 : vt.userID ≠ uidt) :
    handlerUploadVideo ev =
      ⟨[(401, "User does not have access to this video")], [], [], [], false⟩ ∧
    handlerUploadThumbnail et =
      ⟨[(401, "User does not have access to this video")], [], [], [], false⟩ := by
  constructor
  · simp only [handlerUploadVideo, h1, h2, h3, h4, h5, h6]
    simp [h7]
  · simp only [handlerUploadThumbnail, g1, g2, g3, g4, g5, g6]
    simp [g7]

/-- Witness for C2: caller 999 does not own video 7 (owner 42); both
handlers produce exactly the 401 trace. -/
theorem c2_ownership_mismatch_halts_witness :
    handlerUploadVideo { happyEnvV with validateJWT := .ok 999 } =
      ⟨[(401, "User does not have access to this video")], [], [], [], false⟩ ∧
    handlerUploadThumbnail { happyEnvT with validateJWT := .ok 999 } =
      ⟨[(401, "User does not have access to this video")], [], [], [], false⟩ :=
  c2_ownership_mismatch_halts { happyEnvV with validateJWT := .ok 999 }
    { happyEnvT with validateJWT := .ok 999 } 7 7 999 999 "tok".toList "tok".toList
    videoA videoA rfl rfl rfl rfl rfl rfl (by decide)
    rfl rfl rfl rfl rfl rfl (by decide)

/-- C7: the aspect class maps to the key prefix by exactly
16:9 to landscape, 9:16 to portrait, other to other, and for a video
whose first stream classifies as 16:9 the record is updated with the
configured bucket paired (via the "bucket,key" composite) with the
landscape-prefixed generated key. -/
theorem c7_aspect_key_and_location (ev : EnvVideo) (vid uid : Nat) (tok suf : GoStr)
    (video : Video) (bytes : List Nat) (w h : Int) (rest : List (Int × Int))
    (h1 : ev.videoIDParse = .ok vid) (h2 : ev.bearerToken = .ok tok)
    (h3 : ev.validateJWT = .ok uid) (h4 : ev.parseForm = .ok ())
    (h5 : ev.formFile = .ok ()) (h6 : ev.getVideo = .ok video) (h7 : video.userID = uid)
    (h8 : ev.mediaTypeParse = .ok "video/mp4".toList) (h9 : ev.tmpSuffix = .ok suf)
    (h10 : ev.copyToTmp = .ok ()) (h11 : ev.seekTmp = .ok ())
    (h12 : ev.randBytes = .ok bytes) (h13 : ev.probeStreams = .ok ((w, h) :: rest))
    (h14 : classifyAspect w h = "16:9".toList) :
    prefixFor "16:9".toList = "landscape".toList ∧
    prefixFor "9:16".toList = "portrait".toList ∧
    prefixFor "other".toList = "other".toList ∧
    (handlerUploadVideo ev).updates =
      [{ video with videoURL := some (ev.s3Bucket ++ ',' ::
        ("landscape".toList ++ '/' :: (rawURLEncode bytes ++ '.' :: "mp4".toList))) }] := by
  refine ⟨by decide, by decide, by decide, ?_⟩
  have hfn : getFilename "video/mp4".toList (Except.ok bytes) =
      .ok (rawURLEncode bytes ++ '.' :: "mp4".toList) := rfl
  simp only [handlerUploadVideo, h1, h2, h3, h4, h5, h6, h7, h8, h9, h10, h11, h12, h13]
  simp only [ne_eq, not_true_eq_false, if_false, hfn]
  simp only [getVideoAspectRatio, h14]
  simp only [prefixFor, if_pos rfl]
  split
  · simp
  · split
    · simp
    · split
      · simp
      · split <;> simp

/-- Witness for C7 at the all-success environment with a 1920x1080 first
stream. -/
theorem c7_aspect_key_and_location_witness :
    prefixFor "16:9".toList = "landscape".toList ∧
    (handlerUploadVideo happyEnvV).updates =
      [{ videoA with videoURL := some (happyEnvV.s3Bucket ++ ',' ::
        ("landscape".toList ++ '/' ::
          (rawURLEncode (List.replicate 32 0) ++ '.' :: "mp4".toList))) }] :=
  have h := c7_aspect_key_and_location happyEnvV 7 42 "tok".toList "123456".toList
    videoA (List.replicate 32 0) 1920 1080 [] rfl rfl rfl rfl rfl rfl rfl rfl rfl
    rfl rfl rfl rfl (by decide)
  ⟨h.1, h.2.2.2⟩

